import Mathlib

/-!
Verification development for the QuestDB ILP client library core
(line-protocol encoder `Buffer`, protocol-version negotiator,
auto-flush / transaction controller `Sender`, and timestamp values).

The core encoder/sender implementation is not present in the repository
snapshot (only its test suite, examples and build scripts are), so the
definitions below are modelled from the specification document, with the
repository's test suite (`test/test.py`, `test/mock_server.py`,
`test/test_tools.py`) fixing the observable behaviour wherever the spec
is ambiguous or self-contradictory.

Strings are modelled as lists of Unicode codepoints (`List Nat`), byte
buffers as lists of byte values (`List Nat`, each < 256).  Machine
integers are `Int` with explicit range checks; IEEE-754 doubles are
carried as their 64-bit bit patterns plus their host decimal rendering,
since the encoder never computes with the float value itself — it only
re-serializes what the host hands it.
-/

set_option autoImplicit false

/-- Codepoints of a Lean string literal (all literals used are ASCII,
so codepoints coincide with UTF-8 bytes). -/
def strCp (s : String) : List Nat := s.toList.map Char.toNat

/-- Little-endian byte rendering of a natural number over `w` bytes
(wraps modulo `2^(8*w)`, as an 8-byte IEEE pattern store would). -/
def leBytes : Nat → Nat → List Nat
  | 0, _ => []
  | w + 1, v => v % 256 :: leBytes w (v / 256)

/-- ASCII decimal digits of a natural number. -/
def natDecimal (n : Nat) : List Nat := (Nat.toDigits 10 n).map Char.toNat

/-- ASCII decimal rendering of an integer (leading `-` when negative). -/
def intDecimal : Int → List Nat
  | Int.ofNat n => natDecimal n
  | Int.negSucc n => 45 :: natDecimal (n + 1)

/-- Modelled from the spec: "all text must be valid Unicode scalar
values; lone surrogate code points are rejected".  A codepoint is valid
iff it is ≤ 0x10FFFF and not in the surrogate block 0xD800–0xDFFF. -/
def validCodepoint (c : Nat) : Bool :=
  decide (c ≤ 1114111) && !(decide (55296 ≤ c) && decide (c ≤ 57343))

/-- UTF-8 encoding of one valid Unicode scalar value. -/
def encodeCodepoint (c : Nat) : List Nat :=
  if c < 128 then [c]
  else if c < 2048 then [192 + c / 64, 128 + c % 64]
  else if c < 65536 then [224 + c / 4096, 128 + c / 64 % 64, 128 + c % 64]
  else [240 + c / 262144, 128 + c / 4096 % 64, 128 + c / 64 % 64, 128 + c % 64]

/-- Reasons a table/column name is rejected by validation. -/
inductive NameErr where
  /-- "names must have a non-zero length" -/
  | emptyName : NameErr
  /-- "found invalid dot at byte position `pos`" -/
  | dotAt (pos : Nat) : NameErr
deriving DecidableEq, Repr

/-- The error taxonomy of the library (`IngressError` kinds plus the
`OverflowError`/`ValueError` classes the spec distinguishes). -/
inductive Err where
  /-- Bad table name (empty / contains a dot). -/
  | badTable (e : NameErr)
  /-- Bad column or symbol name (empty / contains a dot). -/
  | badColumn (e : NameErr)
  /-- Invalid unicode: the offending codepoint (e.g. a lone surrogate). -/
  | badUnicode (codepoint : Nat)
  /-- `OverflowError`-class: integer field value outside 64-bit range. -/
  | overflow (n : Int)
  /-- Server's advertised protocol versions share nothing with {1,2}. -/
  | versionIncompatible (serverVersions : List Nat)
  /-- "Could not detect server's line protocol version, settings url: …". -/
  | couldNotDetect (settingsUrl : List Nat)
  /-- "Sender buffer must be clear when starting a transaction". -/
  | bufferMustBeClear
  /-- Flush failed at the transport level (HTTP status after retries). -/
  | flushFailed (status : Nat)
deriving DecidableEq, Repr

/-- Modelled from the spec: validate-and-UTF-8-encode a codepoint
string; the first invalid codepoint is reported. -/
def utf8Bytes : List Nat → Except Err (List Nat)
  | [] => .ok []
  | c :: rest =>
    if validCodepoint c then
      match utf8Bytes rest with
      | .error e => .error e
      | .ok bs => .ok (encodeCodepoint c ++ bs)
    else .error (.badUnicode c)

/-- Backslash-escaping of one byte in a name or symbol value: the
line-protocol-significant bytes space, comma, equals and newline get a
leading backslash. -/
def escapeByte (b : Nat) : List Nat :=
  if b = 32 || b = 44 || b = 61 || b = 10 then [92, b] else [b]

/-- Backslash-escaping of a whole name / symbol value. -/
def escapeAtom : List Nat → List Nat
  | [] => []
  | b :: bs => escapeByte b ++ escapeAtom bs

/-- Escaping of one byte inside a double-quoted string field: quotes
and backslashes get a leading backslash. -/
def escapeQuotedByte (b : Nat) : List Nat :=
  if b = 34 || b = 92 then [92, b] else [b]

/-- Escaping of a whole double-quoted string field body. -/
def escapeQuoted : List Nat → List Nat
  | [] => []
  | b :: bs => escapeQuotedByte b ++ escapeQuoted bs

/-- Byte index of the first `.` (byte 46) in a byte string, if any. -/
def findDot : List Nat → Option Nat
  | [] => none
  | b :: bs => if b = 46 then some 0 else (findDot bs).map (· + 1)

/-- Modelled from the spec: table name validation — non-zero length,
valid unicode, no literal dot anywhere (the spec instructs "treat any
literal dot in a name as invalid", reporting the byte position of the
offending dot).  On success returns the escaped UTF-8 bytes. -/
def checkTableName (name : List Nat) : Except Err (List Nat) :=
  if name = [] then .error (.badTable .emptyName)
  else
    match utf8Bytes name with
    | .error e => .error e
    | .ok bs =>
      match findDot bs with
      | some i => .error (.badTable (.dotAt i))
      | none => .ok (escapeAtom bs)

/-- Modelled from the spec: column/symbol name validation — same rules
as table names, but reported as a column-name error. -/
def checkColumnName (name : List Nat) : Except Err (List Nat) :=
  if name = [] then .error (.badColumn .emptyName)
  else
    match utf8Bytes name with
    | .error e => .error e
    | .ok bs =>
      match findDot bs with
      | some i => .error (.badColumn (.dotAt i))
      | none => .ok (escapeAtom bs)

/-- A host float value as the encoder sees it: either a finite double
(its 64-bit IEEE-754 bit pattern together with the host's decimal text
rendering) or one of the three special values. -/
inductive FloatV where
  | finite (bits : Nat) (text : List Nat) : FloatV
  | nan : FloatV
  | inf : FloatV
  | negInf : FloatV
deriving DecidableEq, Repr

/-- Protocol-v1 decimal ASCII text of a float: its host rendering for
finite values, the literal words for the special values. -/
def FloatV.text : FloatV → List Nat
  | .finite _ t => t
  | .nan => strCp "NaN"
  | .inf => strCp "Infinity"
  | .negInf => strCp "-Infinity"

/-- 64-bit IEEE-754 bit pattern of a float (canonical patterns for the
special values). -/
def FloatV.bits : FloatV → Nat
  | .finite b _ => b
  | .nan => 0x7FF8000000000000
  | .inf => 0x7FF0000000000000
  | .negInf => 0xFFF0000000000000

/-- The tagged-variant column value type of the spec's design note
("{Bool, Int64, Float64, String, TimestampMicros, …}"). -/
inductive Value where
  | vBool (b : Bool)
  | vInt (n : Int)
  | vFloat (f : FloatV)
  | vStr (s : List Nat)
  | vTimestampMicros (n : Int)
deriving DecidableEq, Repr

/-- Modelled from the spec: the bytes of a field value after the
`name=` prefix.  Booleans are `t`/`f`; integers are decimal digits with
an `i` suffix after a 64-bit range check (values outside
`[-2^63, 2^63-1]` are an `OverflowError`-class error, no wraparound);
floats are decimal text under protocol v1 and `=` + type byte 0x10 +
8-byte little-endian IEEE-754 under protocol v2 (so the full field
reads `name==\x10…`); strings are double-quoted with quote/backslash
escaping after unicode validation; explicit microsecond timestamps are
digits with a `t` suffix. -/
def encodeValue (version : Nat) (v : Value) : Except Err (List Nat) :=
  match v with
  | .vBool true => .ok [116]
  | .vBool false => .ok [102]
  | .vInt n =>
    if -(2 : Int) ^ 63 ≤ n ∧ n ≤ 2 ^ 63 - 1 then .ok (intDecimal n ++ [105])
    else .error (.overflow n)
  | .vFloat f =>
    if version = 1 then .ok f.text
    else .ok ([61, 16] ++ leBytes 8 f.bits)
  | .vStr s =>
    match utf8Bytes s with
    | .error e => .error e
    | .ok bs => .ok ([34] ++ escapeQuoted bs ++ [34])
  | .vTimestampMicros n => .ok (intDecimal n ++ [116])

/-- The mandatory `at` argument of `row`: either "server assigns the
designated timestamp" (nothing appended) or an explicit
nanosecond-resolution timestamp (appended as plain decimal text). -/
inductive At where
  | serverTimestamp : At
  | tsNanos (n : Int) : At
deriving DecidableEq, Repr

/-- Designated-timestamp suffix of a line (space + plain integer text,
no unit letter), empty for a server-assigned timestamp. -/
def atSuffix : At → List Nat
  | .serverTimestamp => []
  | .tsNanos n => 32 :: intDecimal n

/-- The `Buffer`: protocol version plus the accumulated bytes. -/
structure Buffer where
  version : Nat
  data : List Nat
deriving DecidableEq, Repr

/-- Modelled from the spec: write the symbol section.  Each `None`
entry is skipped, "contributing neither bytes nor error" (its name is
not validated); each present entry is `,name=value` with name
validation and unicode validation of the value.  Bytes are written
incrementally, so a failure leaves the bytes of earlier entries in
place (the caller rolls back to its marker).  Returns the new data, a
flag recording whether anything was written, and the first error. -/
def writeSymbols (data : List Nat) (wrote : Bool) :
    List (List Nat × Option (List Nat)) → List Nat × Bool × Option Err
  | [] => (data, wrote, none)
  | (_, none) :: rest => writeSymbols data wrote rest
  | (name, some v) :: rest =>
    match checkColumnName name with
    | .error e => (data, wrote, some e)
    | .ok nb =>
      match utf8Bytes v with
      | .error e => (data, wrote, some e)
      | .ok vb =>
        writeSymbols (data ++ 44 :: nb ++ 61 :: escapeAtom vb) true rest

/-- Modelled from the spec: write the field section.  `None` entries
are skipped; the first field written is preceded by a space, later ones
by a comma (the `wrote` flag tracks this); each entry is
`name=<encoded value>` with name validation and per-variant value
encoding.  Incremental, like `writeSymbols`. -/
def writeColumns (version : Nat) (data : List Nat) (wrote : Bool) :
    List (List Nat × Option Value) → List Nat × Bool × Option Err
  | [] => (data, wrote, none)
  | (_, none) :: rest => writeColumns version data wrote rest
  | (name, some v) :: rest =>
    match checkColumnName name with
    | .error e => (data, wrote, some e)
    | .ok nb =>
      match encodeValue version v with
      | .error e => (data, wrote, some e)
      | .ok vb =>
        writeColumns version
          (data ++ (if wrote then 44 else 32) :: nb ++ 61 :: vb) true rest

/-- Modelled from the spec: `Buffer.row`.  The marker (`start`) records
the length before the row; the table name is validated and written
first, then the symbol and field sections; if nothing but the table
name was written the row is a no-op and the buffer is rewound to the
marker (nothing appended, no error); on any error the buffer is rewound
to the marker and the error is surfaced (strong exception safety);
otherwise the designated-timestamp suffix and the terminating newline
are appended.  The returned buffer is the state visible after the call,
also when the call raises. -/
def Buffer.row (b : Buffer) (table : List Nat)
    (symbols : List (List Nat × Option (List Nat)))
    (columns : List (List Nat × Option Value)) (a : At) :
    Buffer × Option Err :=
  let start := b.data.length
  match checkTableName table with
  | .error e => (b, some e)
  | .ok tb =>
    match writeSymbols (b.data ++ tb) false symbols with
    | (d, _, some e) => ({ b with data := d.take start }, some e)
    | (d, wsym, none) =>
      match writeColumns b.version d false columns with
      | (d2, _, some e) => ({ b with data := d2.take start }, some e)
      | (d2, wcol, none) =>
        if wsym || wcol then
          ({ b with data := d2 ++ atSuffix a ++ [10] }, none)
        else
          ({ b with data := d2.take start }, none)

/-- The full encoded line a row call produces on an empty buffer (empty
for a no-op or failed row). -/
def lineOf (version : Nat) (table : List Nat)
    (symbols : List (List Nat × Option (List Nat)))
    (columns : List (List Nat × Option Value)) (a : At) : List Nat :=
  (Buffer.row ⟨version, []⟩ table symbols columns a).1.data

/-- The client's supported line-protocol versions. -/
def clientVersions : List Nat := [1, 2]

/-- Maximum of a list of naturals (0 for the empty list). -/
def maxList : List Nat → Nat
  | [] => 0
  | v :: vs => max v (maxList vs)

/-- Modelled from the spec: protocol-version negotiation from the
server settings response.  `none` means the JSON had no usable
line-protocol-versions field (fall back to V1); otherwise the highest
version in the intersection of the advertised set with the client's
{1, 2} is selected, and an empty intersection is an explicit
incompatibility error. -/
def negotiate (serverVersions : Option (List Nat)) : Except Err Nat :=
  match serverVersions with
  | none => .ok 1
  | some vs =>
    let common := vs.filter (fun v => clientVersions.contains v)
    if common = [] then .error (.versionIncompatible vs)
    else .ok (maxList common)

/-- Outcome of the GET to the server's settings endpoint. -/
inductive SettingsFetch where
  /-- The settings endpoint could not be reached at all. -/
  | unreachable : SettingsFetch
  /-- A response arrived; `versions` is its line-protocol-versions
  field, absent when the JSON lacks one. -/
  | response (versions : Option (List Nat)) : SettingsFetch
deriving DecidableEq, Repr

/-- Modelled from the spec (fixed by `test_http_server_not_serve`):
resolution of `protocol_version="auto"` for an HTTP sender.  An
unreachable settings endpoint is an error naming the settings URL
queried ("Could not detect server's line protocol version, settings
url: …"); a reachable response is negotiated. -/
def resolveProtocolVersion (settingsUrl : List Nat) (fetch : SettingsFetch) :
    Except Err Nat :=
  match fetch with
  | .unreachable => .error (.couldNotDetect settingsUrl)
  | .response vs => negotiate vs

/-- `ValueError`-class errors of the timestamp constructors. -/
inductive ValueErr where
  /-- "value must be a positive timestamp" -/
  | mustBePositive : ValueErr
deriving DecidableEq, Repr

/-- An explicit microsecond-resolution timestamp value. -/
structure TimestampMicros where
  value : Int
deriving DecidableEq, Repr

/-- An explicit nanosecond-resolution timestamp value. -/
structure TimestampNanos where
  value : Int
deriving DecidableEq, Repr

/-- Modelled from the spec: `TimestampMicros(n)` rejects negative
integers with a "value must be a positive" `ValueError`. -/
def TimestampMicros.ofInt (n : Int) : Except ValueErr TimestampMicros :=
  if n < 0 then .error .mustBePositive else .ok ⟨n⟩

/-- Modelled from the spec: `TimestampNanos(n)`, same validation. -/
def TimestampNanos.ofInt (n : Int) : Except ValueErr TimestampNanos :=
  if n < 0 then .error .mustBePositive else .ok ⟨n⟩

/-- A (timezone-resolved) host datetime, as the signed whole number of
microseconds between it and the Unix epoch 1970-01-01 UTC. -/
structure Datetime where
  epochMicros : Int
deriving DecidableEq, Repr

/-- Modelled from the spec: `TimestampMicros.from_datetime` converts to
microseconds since the epoch and applies the constructor validation. -/
def TimestampMicros.from_datetime (dt : Datetime) :
    Except ValueErr TimestampMicros :=
  TimestampMicros.ofInt dt.epochMicros

/-- Modelled from the spec: `TimestampNanos.from_datetime` converts to
nanoseconds since the epoch and applies the constructor validation. -/
def TimestampNanos.from_datetime (dt : Datetime) :
    Except ValueErr TimestampNanos :=
  TimestampNanos.ofInt (dt.epochMicros * 1000)

/-- The HTTP `Sender`: the negotiated protocol version, its own buffer
bytes, the count of rows appended since the last flush, the log of
outbound HTTP request bodies, and the auto-flush thresholds (each
independently disable-able via `none`). -/
structure Sender where
  version : Nat
  buf : List Nat
  rowsPending : Nat
  requests : List (List Nat)
  autoFlushRows : Option Nat
  autoFlushBytes : Option Nat
deriving DecidableEq, Repr

/-- Modelled from the spec: an auto-flush threshold fires when the
pending row count or buffered byte count meets or exceeds a configured
threshold. -/
def shouldAutoFlush (s : Sender) : Bool :=
  (match s.autoFlushRows with
   | some k => decide (k ≤ s.rowsPending)
   | none => false) ||
  (match s.autoFlushBytes with
   | some k => decide (k ≤ s.buf.length)
   | none => false)

/-- Modelled from the spec: `Sender.flush`.  Flushing an empty buffer
sends nothing; otherwise the buffer bytes are handed to the transport
as one request body, and the buffer is cleared whether the transport
reports success (`response = none`) or a failure status after its
retries are exhausted (`response = some code`) — "data handed to the
transport" is treated as gone either way. -/
def Sender.flush (s : Sender) (response : Option Nat) : Sender × Option Err :=
  if s.buf = [] then (s, none)
  else
    let s2 : Sender :=
      { s with buf := [], rowsPending := 0, requests := s.requests ++ [s.buf] }
    match response with
    | none => (s2, none)
    | some code => (s2, some (.flushFailed code))

/-- Modelled from the spec: a sender-level `row` call outside any
transaction — append via the buffer encoder (errors leave the sender
untouched), then evaluate the auto-flush thresholds and flush
synchronously when one is met. -/
def Sender.row (s : Sender) (table : List Nat)
    (symbols : List (List Nat × Option (List Nat)))
    (columns : List (List Nat × Option Value)) (a : At) :
    Sender × Option Err :=
  match Buffer.row ⟨s.version, s.buf⟩ table symbols columns a with
  | (_, some e) => (s, some e)
  | (b2, none) =>
    let s2 := { s with buf := b2.data, rowsPending := s.rowsPending + 1 }
    if shouldAutoFlush s2 then Sender.flush s2 none else (s2, none)

/-- One `txn.row(...)` call inside a transaction scope. -/
structure TxnRow where
  symbols : List (List Nat × Option (List Nat))
  columns : List (List Nat × Option Value)
  ts : At
deriving DecidableEq, Repr

/-- Stage the rows of a transaction into a buffer, all targeting the
transaction's bound table, with no auto-flush evaluation in between.
An encoder error aborts the remaining rows (the exception propagates
out of the scope). -/
def runTxnRows (version : Nat) (table : List Nat) :
    List Nat → List TxnRow → List Nat × Option Err
  | buf, [] => (buf, none)
  | buf, r :: rest =>
    match Buffer.row ⟨version, buf⟩ table r.symbols r.columns r.ts with
    | (_, some e) => (buf, some e)
    | (b2, none) => runTxnRows version table b2.data rest

/-- Modelled from the spec: a whole `with sender.transaction(table)`
scope over HTTP.  Entry requires the sender's buffer to be empty.  The
scope's rows are staged without any auto-flush evaluation.  A row error
or an exception propagating out of the scope (`exitNormally = false`)
rolls the staged rows back: zero outbound requests for them.  A normal
exit commits: exactly one flush of the staged bytes as one request
(`response` is the transport's answer to that request). -/
def Sender.transactionScope (s : Sender) (table : List Nat)
    (rows : List TxnRow) (exitNormally : Bool) (response : Option Nat) :
    Sender × Option Err :=
  if s.buf = [] then
    match runTxnRows s.version table s.buf rows with
    | (_, some e) => (s, some e)
    | (staged, none) =>
      if exitNormally then Sender.flush { s with buf := staged } response
      else (s, none)
  else (s, some .bufferMustBeClear)

/-! ### Structural lemmas about the encoder -/

theorem writeSymbols_shift (syms : List (List Nat × Option (List Nat))) :
    ∀ (d1 d2 : List Nat) (w : Bool),
      writeSymbols (d1 ++ d2) w syms =
        (d1 ++ (writeSymbols d2 w syms).1, (writeSymbols d2 w syms).2) := by
  induction syms with
  | nil => intro d1 d2 w; simp [writeSymbols]
  | cons p rest ih =>
    intro d1 d2 w
    obtain ⟨name, v⟩ := p
    cases v with
    | none => simpa [writeSymbols] using ih d1 d2 w
    | some s =>
      simp only [writeSymbols]
      cases h1 : checkColumnName name with
      | error e => simp
      | ok nb =>
        cases h2 : utf8Bytes s with
        | error e => simp
        | ok vb =>
          simp only [List.append_assoc]
          exact ih d1 _ true

theorem writeColumns_shift (version : Nat)
    (cols : List (List Nat × Option Value)) :
    ∀ (d1 d2 : List Nat) (w : Bool),
      writeColumns version (d1 ++ d2) w cols =
        (d1 ++ (writeColumns version d2 w cols).1,
         (writeColumns version d2 w cols).2) := by
  induction cols with
  | nil => intro d1 d2 w; simp [writeColumns]
  | cons p rest ih =>
    intro d1 d2 w
    obtain ⟨name, v⟩ := p
    cases v with
    | none => simpa [writeColumns] using ih d1 d2 w
    | some s =>
      simp only [writeColumns]
      cases h1 : checkColumnName name with
      | error e => simp
      | ok nb =>
        cases h2 : encodeValue version s with
        | error e => simp
        | ok vb =>
          simp only [List.append_assoc]
          exact ih d1 _ true

/-- A row call on a buffer holding `d` behaves exactly like the same
call on an empty buffer, with its resulting bytes appended after `d`:
the encoder is local to the current row. -/
theorem Buffer.row_shift (v : Nat) (d : List Nat) (t : List Nat)
    (s : List (List Nat × Option (List Nat)))
    (c : List (List Nat × Option Value)) (a : At) :
    Buffer.row ⟨v, d⟩ t s c a =
      (⟨v, d ++ (Buffer.row ⟨v, []⟩ t s c a).1.data⟩,
       (Buffer.row ⟨v, []⟩ t s c a).2) := by
  simp only [Buffer.row]
  cases h1 : checkTableName t with
  | error e => simp
  | ok tb =>
    simp only [List.nil_append]
    rcases h2 : writeSymbols tb false s with ⟨dd, ww, ee⟩
    rw [writeSymbols_shift s d tb false, h2]
    cases ee with
    | some e => simp [List.take_left]
    | none =>
      simp only []
      rcases h3 : writeColumns v dd false c with ⟨dd2, ww2, ee2⟩
      rw [writeColumns_shift v c d dd false, h3]
      cases ee2 with
      | some e => simp [List.take_left]
      | none =>
        by_cases hw : (ww || ww2) = true
        · simp [hw]
        · simp [hw, List.take_left]

/-- On an empty buffer, a row call that reports an error leaves no
bytes behind (every error path rewinds to the row-start marker). -/
theorem Buffer.row_nil_error_data (v : Nat) (t : List Nat)
    (s : List (List Nat × Option (List Nat)))
    (c : List (List Nat × Option Value)) (a : At)
    (h : (Buffer.row ⟨v, []⟩ t s c a).2.isSome = true) :
    (Buffer.row ⟨v, []⟩ t s c a).1.data = [] := by
  simp only [Buffer.row] at h ⊢
  cases h1 : checkTableName t with
  | error e => simp [h1]
  | ok tb =>
    simp only [h1, List.nil_append] at h ⊢
    rcases h2 : writeSymbols tb false s with ⟨dd, ww, ee⟩
    simp only [h2] at h ⊢
    cases ee with
    | some e => simp
    | none =>
      simp only [] at h ⊢
      rcases h3 : writeColumns v dd false c with ⟨dd2, ww2, ee2⟩
      simp only [h3] at h ⊢
      cases ee2 with
      | some e => simp
      | none =>
        by_cases hw : (ww || ww2) = true
        · simp [hw] at h
        · simp [hw]

/-- Strong exception safety, structural form: a row call that reports
an error returns the buffer exactly as it was before the call. -/
theorem Buffer.row_error_eq (b : Buffer) (t : List Nat)
    (s : List (List Nat × Option (List Nat)))
    (c : List (List Nat × Option Value)) (a : At)
    (h : (Buffer.row b t s c a).2.isSome = true) :
    (Buffer.row b t s c a).1 = b := by
  obtain ⟨v, d⟩ := b
  rw [Buffer.row_shift] at h ⊢
  have hd := Buffer.row_nil_error_data v t s c a (by simpa using h)
  simp [hd]

/-- Skipped entries: a symbol list whose values are all `None`
contributes neither bytes nor error nor a written-fields mark. -/
theorem writeSymbols_all_none (syms : List (List Nat × Option (List Nat)))
    (h : ∀ p ∈ syms, p.2 = none) (d : List Nat) (w : Bool) :
    writeSymbols d w syms = (d, w, none) := by
  induction syms with
  | nil => simp [writeSymbols]
  | cons p rest ih =>
    obtain ⟨name, v⟩ := p
    have hv : v = none := h (name, v) (by simp)
    subst hv
    exact ih (fun q hq => h q (by simp [hq]))

/-- Skipped entries: a column list whose values are all `None`
contributes neither bytes nor error nor a written-fields mark. -/
theorem writeColumns_all_none (version : Nat)
    (cols : List (List Nat × Option Value))
    (h : ∀ p ∈ cols, p.2 = none) (d : List Nat) (w : Bool) :
    writeColumns version d w cols = (d, w, none) := by
  induction cols with
  | nil => simp [writeColumns]
  | cons p rest ih =>
    obtain ⟨name, v⟩ := p
    have hv : v = none := h (name, v) (by simp)
    subst hv
    exact ih (fun q hq => h q (by simp [hq]))

/-- Staging the rows of a transaction appends each row's encoded line
in append order, when every row encodes successfully. -/
theorem runTxnRows_append (v : Nat) (table : List Nat) (rows : List TxnRow)
    (h : ∀ r ∈ rows,
      (Buffer.row ⟨v, []⟩ table r.symbols r.columns r.ts).2 = none) :
    ∀ buf : List Nat,
      runTxnRows v table buf rows =
        (buf ++ (rows.map
          (fun r => lineOf v table r.symbols r.columns r.ts)).flatten, none) := by
  induction rows with
  | nil => intro buf; simp [runTxnRows]
  | cons r rest ih =>
    intro buf
    have hr := h r (by simp)
    have hshift := Buffer.row_shift v buf table r.symbols r.columns r.ts
    simp only [runTxnRows]
    rw [hshift, hr]
    simp only []
    rw [ih (fun q hq => h q (by simp [hq]))]
    simp [lineOf, List.append_assoc]

/-- The maximum of a non-empty list of naturals is one of its
elements. -/
theorem maxList_mem (l : List Nat) (h : l ≠ []) : maxList l ∈ l := by
  induction l with
  | nil => exact absurd rfl h
  | cons v vs ih =>
    cases vs with
    | nil => simp [maxList]
    | cons w ws =>
      have hm : maxList (v :: w :: ws) = max v (maxList (w :: ws)) := rfl
      rcases Nat.le_total v (maxList (w :: ws)) with hle | hle
      · have h2 : max v (maxList (w :: ws)) = maxList (w :: ws) := max_eq_right hle
        rw [hm, h2]
        exact List.mem_cons_of_mem v (ih (by simp))
      · have h2 : max v (maxList (w :: ws)) = v := max_eq_left hle
        rw [hm, h2]
        simp
/-- Every element of a list of naturals is bounded by its maximum. -/
theorem le_maxList (l : List Nat) (w : Nat) (h : w ∈ l) : w ≤ maxList l := by
  induction l with
  | nil => simp at h
  | cons v vs ih =>
    rcases List.mem_cons.mp h with rfl | hmem
    · exact le_max_left _ _
    · exact Nat.le_trans (ih hmem) (le_max_right _ _)

/-! ### Claim theorems -/

deriving instance DecidableEq for Except

/-- C1: Strong exception safety of `Buffer.row`: for every row call
that raises (bad table/column name, invalid unicode such as a lone
surrogate, integer overflow, type-level value error), the buffer after
the failed call — bytes and length — is exactly the buffer before the
call; consequently any subsequent row call behaves exactly as on the
original buffer, and a subsequent valid call appends exactly its own
encoded line. -/
theorem buffer_row_strong_exception_safety (b : Buffer) (t : List Nat)
    (s : List (List Nat × Option (List Nat)))
    (c : List (List Nat × Option Value)) (a : At)
    (h : (Buffer.row b t s c a).2.isSome = true) :
    (Buffer.row b t s c a).1 = b ∧
      ∀ (t2 : List Nat) (s2 : List (List Nat × Option (List Nat)))
        (c2 : List (List Nat × Option Value)) (a2 : At),
        Buffer.row (Buffer.row b t s c a).1 t2 s2 c2 a2 =
          Buffer.row b t2 s2 c2 a2 ∧
        ((Buffer.row b t2 s2 c2 a2).2 = none →
          (Buffer.row b t2 s2 c2 a2).1.data =
            b.data ++ lineOf b.version t2 s2 c2 a2) := by
  have he := Buffer.row_error_eq b t s c a h
  refine ⟨he, fun t2 s2 c2 a2 => ⟨by rw [he], fun _ => ?_⟩⟩
  obtain ⟨v, d⟩ := b
  rw [Buffer.row_shift]
  rfl

/-- Witness for C1 at the test suite's lone-surrogate input: with one
line already buffered, `row('tbl1', symbols={'questdb1': 'a\ud800'})`
raises and the buffer is exactly as before the failed call. -/
theorem buffer_row_strong_exception_safety_witness :
    ((Buffer.row ⟨1, strCp "tbl1,questdb1=qp\n"⟩ (strCp "tbl1")
        [(strCp "questdb1", some [97, 55296])] []
        .serverTimestamp).2.isSome = true) ∧
      (Buffer.row ⟨1, strCp "tbl1,questdb1=qp\n"⟩ (strCp "tbl1")
        [(strCp "questdb1", some [97, 55296])] []
        .serverTimestamp).1 = ⟨1, strCp "tbl1,questdb1=qp\n"⟩ :=
  ⟨by decide,
   (buffer_row_strong_exception_safety ⟨1, strCp "tbl1,questdb1=qp\n"⟩
      (strCp "tbl1") [(strCp "questdb1", some [97, 55296])] []
      .serverTimestamp (by decide)).1⟩

/-- C6: 64-bit integer bounds: an integer field value in
`[-2^63, 2^63-1]` succeeds and is rendered as its decimal digits with
an `i` suffix; any value outside the range (in particular `2^63` and
`-2^63-1`) raises an `OverflowError`-class error and the buffer is
unchanged — no silent wraparound. -/
theorem int_field_64bit_bounds (b : Buffer) (n : Int) :
    (-(2 : Int) ^ 63 ≤ n ∧ n ≤ 2 ^ 63 - 1 →
      Buffer.row b (strCp "tbl1") [] [(strCp "num", some (.vInt n))]
          .serverTimestamp =
        (⟨b.version,
          b.data ++ strCp "tbl1 num=" ++ intDecimal n ++ strCp "i\n"⟩,
         none)) ∧
    (n < -(2 : Int) ^ 63 ∨ 2 ^ 63 - 1 < n →
      Buffer.row b (strCp "tbl1") [] [(strCp "num", some (.vInt n))]
          .serverTimestamp = (b, some (.overflow n))) := by
  obtain ⟨v, d⟩ := b
  have hct : checkTableName (strCp "tbl1") = .ok (strCp "tbl1") := by decide
  have hcn : checkColumnName (strCp "num") = .ok (strCp "num") := by decide
  constructor
  · rintro ⟨h1, h2⟩
    have henc : encodeValue v (.vInt n) = .ok (intDecimal n ++ [105]) := by
      simp only [encodeValue]
      rw [if_pos ⟨h1, h2⟩]
    rw [Buffer.row_shift]
    simp only [Buffer.row, hct, hcn, henc, writeSymbols, writeColumns,
      List.nil_append, atSuffix]
    simp [strCp, List.append_assoc]
  · intro hout
    have hpow : (2 : Int) ^ 63 = 9223372036854775808 := by norm_num
    have henc : encodeValue v (.vInt n) = .error (.overflow n) := by
      simp only [encodeValue]
      rw [if_neg]
      rintro ⟨ha, hb⟩
      rw [hpow] at ha hb
      rcases hout with h1 | h1 <;> rw [hpow] at h1 <;> omega
    rw [Buffer.row_shift]
    simp only [Buffer.row, hct, hcn, henc, writeSymbols, writeColumns,
      List.nil_append]
    simp

/-- Witness for C6: `0` and the exact bounds `±(2^63∓…)` succeed with
the expected bytes; `2^63` and `-2^63-1` raise the overflow error. -/
theorem int_field_64bit_bounds_witness :
    (Buffer.row ⟨1, []⟩ (strCp "tbl1") [] [(strCp "num", some (.vInt 0))]
        .serverTimestamp =
      (⟨1, strCp "tbl1 num=0i\n"⟩, none)) ∧
    (Buffer.row ⟨1, []⟩ (strCp "tbl1") []
        [(strCp "num", some (.vInt (2 ^ 63)))] .serverTimestamp =
      (⟨1, []⟩, some (.overflow (2 ^ 63)))) ∧
    (Buffer.row ⟨1, []⟩ (strCp "tbl1") []
        [(strCp "num", some (.vInt (-2 ^ 63 - 1)))] .serverTimestamp =
      (⟨1, []⟩, some (.overflow (-2 ^ 63 - 1)))) := by
  refine ⟨?_, ?_, ?_⟩
  · have := (int_field_64bit_bounds ⟨1, []⟩ 0).1 (by norm_num)
    simpa [strCp] using this
  · exact (int_field_64bit_bounds ⟨1, []⟩ (2 ^ 63)).2 (by norm_num)
  · exact (int_field_64bit_bounds ⟨1, []⟩ (-2 ^ 63 - 1)).2 (by norm_num)

/-- Helper: a row call whose first symbol entry has a name rejected by
validation surfaces that error with the buffer rolled back. -/
theorem row_first_symbol_error (b : Buffer) (table tb name v : List Nat)
    (rest : List (List Nat × Option (List Nat)))
    (columns : List (List Nat × Option Value)) (a : At) (e : Err)
    (hct : checkTableName table = .ok tb)
    (hcn : checkColumnName name = .error e) :
    Buffer.row b table ((name, some v) :: rest) columns a = (b, some e) := by
  simp only [Buffer.row, hct, writeSymbols, hcn]
  simp [List.take_left]

/-- Helper: a row call with no symbols whose first column entry has a
name rejected by validation surfaces that error with the buffer rolled
back. -/
theorem row_first_column_error (b : Buffer) (table tb name : List Nat)
    (w : Value) (rest : List (List Nat × Option Value)) (a : At) (e : Err)
    (hct : checkTableName table = .ok tb)
    (hcn : checkColumnName name = .error e) :
    Buffer.row b table [] ((name, some w) :: rest) a = (b, some e) := by
  simp only [Buffer.row, hct, writeSymbols, writeColumns, hcn]
  simp [List.take_left]

/-- Helper: a dotted byte string is rejected by column-name validation
at the byte position of its first dot. -/
theorem checkColumnName_dot (name nb : List Nat) (i : Nat)
    (hu : utf8Bytes name = .ok nb) (hd : findDot nb = some i) :
    checkColumnName name = .error (.badColumn (.dotAt i)) := by
  have hne : name ≠ [] := by
    rintro rfl
    simp only [utf8Bytes] at hu
    cases hu
    simp [findDot] at hd
  simp only [checkColumnName, if_neg hne, hu, hd]

/-- Helper: a dotted byte string is rejected by table-name validation
at the byte position of its first dot. -/
theorem checkTableName_dot (name nb : List Nat) (i : Nat)
    (hu : utf8Bytes name = .ok nb) (hd : findDot nb = some i) :
    checkTableName name = .error (.badTable (.dotAt i)) := by
  have hne : name ≠ [] := by
    rintro rfl
    simp only [utf8Bytes] at hu
    cases hu
    simp [findDot] at hd
  simp only [checkTableName, if_neg hne, hu, hd]

/-- C7 counterexample: a `row` call whose symbol values are all `None`
but whose table name is empty does raise — table-name validation runs
before the no-op rewind — refuting "no error is raised" as universally
stated (the buffer is still left unchanged). -/
theorem all_none_row_counterexample :
    (Buffer.row ⟨1, []⟩ [] [(strCp "sym1", none)] [] .serverTimestamp).2 =
      some (Err.badTable NameErr.emptyName) ∧
    (Buffer.row ⟨1, []⟩ [] [(strCp "sym1", none)] [] .serverTimestamp).1 =
      ⟨1, []⟩ := by
  decide

/-- C7 (amended): for every `Buffer.row` call in which every symbol
value and every column value is `None` — including a call with no
symbols or columns at all — the buffer's bytes and length are
unchanged; nothing is appended; and no error is raised if and only if
the table name passes validation (an invalid table name raises, with
the buffer still unchanged). -/
theorem all_none_row_is_noop (b : Buffer) (table : List Nat)
    (symbols : List (List Nat × Option (List Nat)))
    (columns : List (List Nat × Option Value)) (a : At)
    (hs : ∀ p ∈ symbols, p.2 = none) (hc : ∀ p ∈ columns, p.2 = none) :
    (Buffer.row b table symbols columns a).1 = b ∧
      ((Buffer.row b table symbols columns a).2 = none ↔
        ∃ tb, checkTableName table = .ok tb) := by
  have h2 := writeSymbols_all_none symbols hs
  have h3 := writeColumns_all_none b.version columns hc
  simp only [Buffer.row]
  cases h1 : checkTableName table with
  | error e => simp
  | ok tb =>
    simp only [h2, h3, Bool.or_self]
    simp [List.take_left]

/-- Witness for the amended C7 at the test suite's input: with a line
already buffered, `row('tbl1', symbols={'sym1': None, 'sym2': None})`
changes nothing and raises nothing. -/
theorem all_none_row_is_noop_witness :
    (Buffer.row ⟨1, strCp "tbl1,sym1=val1\n"⟩ (strCp "tbl1")
        [(strCp "sym1", none), (strCp "sym2", none)] []
        .serverTimestamp).1 = ⟨1, strCp "tbl1,sym1=val1\n"⟩ ∧
    (Buffer.row ⟨1, strCp "tbl1,sym1=val1\n"⟩ (strCp "tbl1")
        [(strCp "sym1", none), (strCp "sym2", none)] []
        .serverTimestamp).2 = none :=
  ⟨(all_none_row_is_noop ⟨1, strCp "tbl1,sym1=val1\n"⟩ (strCp "tbl1")
      [(strCp "sym1", none), (strCp "sym2", none)] [] .serverTimestamp
      (by decide) (by decide)).1,
   ((all_none_row_is_noop ⟨1, strCp "tbl1,sym1=val1\n"⟩ (strCp "tbl1")
      [(strCp "sym1", none), (strCp "sym2", none)] [] .serverTimestamp
      (by decide) (by decide)).2).mpr ⟨strCp "tbl1", by decide⟩⟩

/-- C8 counterexample: a symbols dict entry with an empty name but a
`None` value is skipped without name validation (the spec's "None
entries are skipped, contributing neither bytes nor error"), so this
call raises nothing — refuting "for every … column/symbol name that is
empty, row raises" as universally stated. -/
theorem name_validation_counterexample :
    Buffer.row ⟨1, []⟩ (strCp "tbl1") [([], none)] [] .serverTimestamp =
      (⟨1, []⟩, none) := by
  decide

/-- C8 (amended): an empty table name always raises the non-zero-length
error; a table name containing a literal dot raises an error carrying
the byte position of its first dot; an empty or dotted column/symbol
name raises the corresponding column-name error whenever its entry's
value is non-`None` (a `None`-valued entry is skipped unvalidated); in
every case the buffer is left unchanged. -/
theorem name_validation (b : Buffer) (a : At) :
    (∀ symbols columns, Buffer.row b [] symbols columns a =
        (b, some (Err.badTable NameErr.emptyName))) ∧
    (∀ (table tb : List Nat) (i : Nat) symbols columns,
      utf8Bytes table = .ok tb → findDot tb = some i →
        Buffer.row b table symbols columns a =
          (b, some (Err.badTable (NameErr.dotAt i)))) ∧
    (∀ (table tb v : List Nat) rest columns,
      checkTableName table = .ok tb →
        Buffer.row b table (([], some v) :: rest) columns a =
          (b, some (Err.badColumn NameErr.emptyName))) ∧
    (∀ (table tb name nb v : List Nat) (i : Nat) rest columns,
      checkTableName table = .ok tb →
        utf8Bytes name = .ok nb → findDot nb = some i →
        Buffer.row b table ((name, some v) :: rest) columns a =
          (b, some (Err.badColumn (NameErr.dotAt i)))) ∧
    (∀ (table tb : List Nat) (w : Value) rest,
      checkTableName table = .ok tb →
        Buffer.row b table [] (([], some w) :: rest) a =
          (b, some (Err.badColumn NameErr.emptyName))) ∧
    (∀ (table tb name nb : List Nat) (i : Nat) (w : Value) rest,
      checkTableName table = .ok tb →
        utf8Bytes name = .ok nb → findDot nb = some i →
        Buffer.row b table [] ((name, some w) :: rest) a =
          (b, some (Err.badColumn (NameErr.dotAt i)))) := by
  refine ⟨?_, ?_, ?_, ?_, ?_, ?_⟩
  · intro symbols columns
    simp [Buffer.row, checkTableName]
  · intro table tb i symbols columns hu hd
    have hct := checkTableName_dot table tb i hu hd
    simp [Buffer.row, hct]
  · intro table tb v rest columns hct
    exact row_first_symbol_error b table tb [] v rest columns a _ hct
      (by simp [checkColumnName])
  · intro table tb name nb v i rest columns hct hu hd
    exact row_first_symbol_error b table tb name v rest columns a _ hct
      (checkColumnName_dot name nb i hu hd)
  · intro table tb w rest hct
    exact row_first_column_error b table tb [] w rest a _ hct
      (by simp [checkColumnName])
  · intro table tb name nb i w rest hct hu hd
    exact row_first_column_error b table tb name w rest a _ hct
      (checkColumnName_dot name nb i hu hd)

/-- Witness for the amended C8 at the test suite's inputs: the empty
table name, the dotted table name `x..y` (first dot at byte 1), the
empty symbol name, and the dotted symbol name `sym.bol` (dot at byte
position 3, as the test asserts) all raise with the buffer unchanged. -/
theorem name_validation_witness :
    (Buffer.row ⟨1, []⟩ [] [(strCp "sym1", some (strCp "val1"))] []
        .serverTimestamp = (⟨1, []⟩, some (Err.badTable NameErr.emptyName))) ∧
    (Buffer.row ⟨1, []⟩ (strCp "x..y") [(strCp "sym1", some (strCp "val1"))]
        [] .serverTimestamp =
      (⟨1, []⟩, some (Err.badTable (NameErr.dotAt 1)))) ∧
    (Buffer.row ⟨1, []⟩ (strCp "tbl1") [([], some (strCp "val1"))] []
        .serverTimestamp =
      (⟨1, []⟩, some (Err.badColumn NameErr.emptyName))) ∧
    (Buffer.row ⟨1, []⟩ (strCp "tbl1")
        [(strCp "sym.bol", some (strCp "val1"))] [] .serverTimestamp =
      (⟨1, []⟩, some (Err.badColumn (NameErr.dotAt 3)))) :=
  ⟨(name_validation ⟨1, []⟩ .serverTimestamp).1
      [(strCp "sym1", some (strCp "val1"))] [],
   (name_validation ⟨1, []⟩ .serverTimestamp).2.1
      (strCp "x..y") (strCp "x..y") 1 [(strCp "sym1", some (strCp "val1"))]
      [] (by decide) (by decide),
   (name_validation ⟨1, []⟩ .serverTimestamp).2.2.1
      (strCp "tbl1") (strCp "tbl1") (strCp "val1") [] [] (by decide),
   (name_validation ⟨1, []⟩ .serverTimestamp).2.2.2.1
      (strCp "tbl1") (strCp "tbl1") (strCp "sym.bol") (strCp "sym.bol")
      (strCp "val1") 3 [] [] (by decide) (by decide) (by decide)⟩

/-- C9: float field encoding diverges by protocol version and on
nothing else: in the same `Buffer.row` call, protocol v1 renders a
float field as `=` followed by its decimal ASCII text (where the text
of the special values is the literal `NaN` / `Infinity` / `-Infinity`),
while protocol v2 renders it as `==`, the type byte 0x10, and the
value's 8-byte little-endian IEEE-754 bit pattern. -/
theorem float_field_encoding_by_version (d : List Nat) (f : FloatV) :
    Buffer.row ⟨1, d⟩ (strCp "tbl1") [] [(strCp "num", some (.vFloat f))]
        .serverTimestamp =
      (⟨1, d ++ strCp "tbl1 num=" ++ FloatV.text f ++ [10]⟩, none) ∧
    Buffer.row ⟨2, d⟩ (strCp "tbl1") [] [(strCp "num", some (.vFloat f))]
        .serverTimestamp =
      (⟨2, d ++ strCp "tbl1 num=" ++
          (61 :: 16 :: leBytes 8 (FloatV.bits f)) ++ [10]⟩, none) := by
  have hct : checkTableName (strCp "tbl1") = .ok (strCp "tbl1") := by decide
  have hcn : checkColumnName (strCp "num") = .ok (strCp "num") := by decide
  have henc1 : encodeValue 1 (.vFloat f) = .ok (FloatV.text f) := by
    simp [encodeValue]
  have henc2 : encodeValue 2 (.vFloat f) =
      .ok (61 :: 16 :: leBytes 8 (FloatV.bits f)) := by
    simp [encodeValue]
  constructor
  · rw [Buffer.row_shift]
    simp only [Buffer.row, hct, hcn, henc1, writeSymbols, writeColumns,
      List.nil_append, atSuffix]
    simp [strCp, List.append_assoc]
  · rw [Buffer.row_shift]
    simp only [Buffer.row, hct, hcn, henc2, writeSymbols, writeColumns,
      List.nil_append, atSuffix]
    simp [strCp, List.append_assoc]

/-- C3: HTTP protocol-version auto-negotiation selects the highest
mutually supported version: a server settings response advertising
version set {1}, {2}, {1,2}, or lacking the version field negotiates to
1, 2, 2 and 1 respectively; an advertised set with no intersection with
the client's supported {1,2} (e.g. {3}) fails with the explicit
incompatibility error; and any successful negotiation returns a version
that is advertised, client-supported, and ≥ every other mutually
supported version. -/
theorem protocol_version_negotiation :
    negotiate (some [1]) = .ok 1 ∧
    negotiate (some [2]) = .ok 2 ∧
    negotiate (some [1, 2]) = .ok 2 ∧
    negotiate none = .ok 1 ∧
    negotiate (some [3]) = .error (.versionIncompatible [3]) ∧
    (∀ vs : List Nat, (∀ w ∈ vs, w ∉ clientVersions) →
      negotiate (some vs) = .error (.versionIncompatible vs)) ∧
    (∀ (vs : List Nat) (v : Nat), negotiate (some vs) = .ok v →
      v ∈ vs ∧ v ∈ clientVersions ∧
        ∀ w ∈ vs, w ∈ clientVersions → w ≤ v) := by
  have hneg : ∀ vs : List Nat, negotiate (some vs) =
      if vs.filter (fun v => clientVersions.contains v) = [] then
        .error (.versionIncompatible vs)
      else .ok (maxList (vs.filter (fun v => clientVersions.contains v))) :=
    fun vs => rfl
  refine ⟨by decide, by decide, by decide, by decide, by decide, ?_, ?_⟩
  · intro vs hvs
    have hfil : vs.filter (fun v => clientVersions.contains v) = [] := by
      rw [List.filter_eq_nil_iff]
      simpa using hvs
    rw [hneg, if_pos hfil]
  · intro vs v h
    rw [hneg] at h
    by_cases hc : vs.filter (fun v => clientVersions.contains v) = []
    · rw [if_pos hc] at h
      exact Except.noConfusion h
    · rw [if_neg hc] at h
      cases h
      have hmem := maxList_mem _ hc
      rw [List.mem_filter] at hmem
      refine ⟨hmem.1, List.elem_iff.mp hmem.2, fun w hw hwc => ?_⟩
      exact le_maxList _ w (List.mem_filter.mpr ⟨hw, List.elem_iff.mpr hwc⟩)

/-- Witness for C3: the fully-incompatible set {7,3} is rejected, and
the successful negotiation on the advertised set {5,1} (whose mutually
supported part is {1}) satisfies the highest-mutual characterization. -/
theorem protocol_version_negotiation_witness :
    negotiate (some [7, 3]) = .error (.versionIncompatible [7, 3]) ∧
    (1 ∈ ([5, 1] : List Nat) ∧ 1 ∈ clientVersions ∧
      ∀ w ∈ ([5, 1] : List Nat), w ∈ clientVersions → w ≤ 1) :=
  ⟨protocol_version_negotiation.2.2.2.2.2.1 [7, 3] (by decide),
   protocol_version_negotiation.2.2.2.2.2.2 [5, 1] 1 (by decide)⟩

/-- C4 counterexample: with `protocol_version="auto"` over HTTP and an
unreachable settings endpoint, resolution does not fall back to
version 1 — it fails with the error naming the settings URL queried,
exactly as `test_http_server_not_serve` asserts. -/
theorem auto_version_unreachable_counterexample :
    resolveProtocolVersion (strCp "http://127.0.0.1:1234/settings")
        .unreachable =
      .error (.couldNotDetect (strCp "http://127.0.0.1:1234/settings")) ∧
    resolveProtocolVersion (strCp "http://127.0.0.1:1234/settings")
        .unreachable ≠ .ok 1 := by
  decide

/-- C4 (amended): if the settings endpoint is unreachable, sending
fails with a descriptive error naming the settings URL queried — no
fallback happens; the fall-back-to-V1 behaviour applies only to a
reachable settings response that lacks a usable version field. -/
theorem auto_version_resolution (url : List Nat) :
    resolveProtocolVersion url SettingsFetch.unreachable =
      Except.error (Err.couldNotDetect url) ∧
    resolveProtocolVersion url (SettingsFetch.response none) =
      Except.ok 1 := by
  exact ⟨rfl, rfl⟩

/-- C5: after a flush that fails at the transport level (e.g. an HTTP
500 response surviving the retry budget), the sender's buffer is
nonetheless cleared: `len(sender)` is 0 immediately after the raising
flush call, the failed bytes were handed to the transport exactly once,
and a later flush sends only bytes buffered after the failure — the
failed rows are never resent. -/
theorem failed_flush_clears_buffer (s : Sender) (code : Nat)
    (h : s.buf ≠ []) :
    (s.flush (some code)).2 = some (.flushFailed code) ∧
    (s.flush (some code)).1.buf = [] ∧
    (s.flush (some code)).1.buf.length = 0 ∧
    (∀ nb : List Nat, nb ≠ [] →
      (({ (s.flush (some code)).1 with buf := nb }).flush none).1.requests =
        s.requests ++ [s.buf] ++ [nb]) := by
  refine ⟨?_, ?_, ?_, fun nb hnb => ?_⟩
  · simp [Sender.flush, if_neg h]
  · simp [Sender.flush, if_neg h]
  · simp [Sender.flush, if_neg h]
  · simp [Sender.flush, if_neg h, if_neg hnb]

/-- Witness for C5 at the test's scenario: one buffered row, an HTTP
500 response — the flush raises, the buffer is empty afterwards, and a
follow-up flush of fresh bytes resends only the fresh bytes. -/
theorem failed_flush_clears_buffer_witness :
    ((⟨2, strCp "tbl1 x=42i\n", 1, [], none, none⟩ : Sender).flush
        (some 500)).2 = some (.flushFailed 500) ∧
    ((⟨2, strCp "tbl1 x=42i\n", 1, [], none, none⟩ : Sender).flush
        (some 500)).1.buf = [] ∧
    (({ ((⟨2, strCp "tbl1 x=42i\n", 1, [], none, none⟩ : Sender).flush
          (some 500)).1 with buf := strCp "tbl2 y=1i\n" }).flush
        none).1.requests =
      [strCp "tbl1 x=42i\n", strCp "tbl2 y=1i\n"] := by
  have hw := failed_flush_clears_buffer
    ⟨2, strCp "tbl1 x=42i\n", 1, [], none, none⟩ 500 (by decide)
  refine ⟨hw.1, hw.2.1, ?_⟩
  rw [hw.2.2.2 (strCp "tbl2 y=1i\n") (by decide)]
  decide

/-- C2: HTTP transaction atomicity: with the sender's buffer empty at
scope entry and every staged row encoding successfully, a normal scope
exit produces exactly one outbound HTTP request whose body is the rows'
encoded lines concatenated in append order — whatever the transport
replies; an exception propagating out of the scope produces zero
outbound requests for those rows (and leaves no staged bytes); and the
committed batch is never split by auto-flush, regardless of the
configured row/byte thresholds. -/
theorem transaction_atomicity (s : Sender) (table : List Nat)
    (rows : List TxnRow) (response : Option Nat)
    (hbuf : s.buf = [])
    (hok : ∀ r ∈ rows,
      (Buffer.row ⟨s.version, []⟩ table r.symbols r.columns r.ts).2 = none)
    (hne : (rows.map
      (fun r => lineOf s.version table r.symbols r.columns r.ts)).flatten
        ≠ []) :
    (s.transactionScope table rows true response).1.requests =
      s.requests ++ [(rows.map
        (fun r => lineOf s.version table r.symbols r.columns r.ts)).flatten] ∧
    (s.transactionScope table rows false response).1.requests =
      s.requests ∧
    (s.transactionScope table rows false response).1.buf = [] ∧
    (∀ afr afb : Option Nat,
      (({ s with autoFlushRows := afr, autoFlushBytes := afb
        } : Sender).transactionScope table rows true response).1.requests =
        s.requests ++ [(rows.map
          (fun r => lineOf s.version table r.symbols r.columns r.ts)).flatten])
    := by
  have hrun := runTxnRows_append s.version table rows hok s.buf
  rw [hbuf] at hrun
  simp only [List.nil_append] at hrun
  refine ⟨?_, ?_, ?_, fun afr afb => ?_⟩
  · cases response <;>
      simp [Sender.transactionScope, hbuf, hrun, Sender.flush, hne]
  · simp [Sender.transactionScope, hbuf, hrun]
  · simp [Sender.transactionScope, hbuf, hrun]
  · cases response <;>
      simp [Sender.transactionScope, hbuf, hrun, Sender.flush, hne]

/-- Witness for C2 at the test's transaction: two symbol rows staged
under `transaction('tbl3')` with `auto_flush_rows=1` still commit as
one single request containing both lines in order, and an exceptional
exit sends nothing. -/
theorem transaction_atomicity_witness :
    ((⟨1, [], 0, [], some 1, none⟩ : Sender).transactionScope
        (strCp "tbl3")
        [⟨[(strCp "sym3", some (strCp "val3"))], [], At.tsNanos 111⟩,
         ⟨[(strCp "sym4", some (strCp "val4"))], [], At.tsNanos 111⟩]
        true none).1.requests =
      [strCp "tbl3,sym3=val3 111\n" ++ strCp "tbl3,sym4=val4 111\n"] ∧
    ((⟨1, [], 0, [], some 1, none⟩ : Sender).transactionScope
        (strCp "tbl3")
        [⟨[(strCp "sym3", some (strCp "val3"))], [], At.tsNanos 111⟩,
         ⟨[(strCp "sym4", some (strCp "val4"))], [], At.tsNanos 111⟩]
        false none).1.requests = [] := by
  have hw := transaction_atomicity ⟨1, [], 0, [], some 1, none⟩
    (strCp "tbl3")
    [⟨[(strCp "sym3", some (strCp "val3"))], [], At.tsNanos 111⟩,
     ⟨[(strCp "sym4", some (strCp "val4"))], [], At.tsNanos 111⟩]
    none rfl (by decide) (by decide)
  refine ⟨?_, hw.2.1⟩
  rw [hw.1]
  decide

/-- C10: `TimestampMicros` and `TimestampNanos` constructed from a
negative integer raise the "value must be a positive" `ValueError`;
zero and every positive integer are accepted with `.value` equal to the
given integer; `from_datetime` of any datetime before the Unix epoch
raises the same error, and `from_datetime` of the epoch itself yields
value 0. -/
theorem timestamp_validation (n : Int) (dt : Datetime) :
    (n < 0 →
      TimestampMicros.ofInt n = Except.error ValueErr.mustBePositive ∧
      TimestampNanos.ofInt n = Except.error ValueErr.mustBePositive) ∧
    (0 ≤ n →
      TimestampMicros.ofInt n = Except.ok ⟨n⟩ ∧
      TimestampNanos.ofInt n = Except.ok ⟨n⟩) ∧
    (dt.epochMicros < 0 →
      TimestampMicros.from_datetime dt =
        Except.error ValueErr.mustBePositive ∧
      TimestampNanos.from_datetime dt =
        Except.error ValueErr.mustBePositive) ∧
    (TimestampMicros.from_datetime ⟨0⟩ = Except.ok ⟨0⟩ ∧
      TimestampNanos.from_datetime ⟨0⟩ = Except.ok ⟨0⟩) := by
  refine ⟨fun hn => ?_, fun hn => ?_, fun hdt => ?_, ?_⟩
  · simp [TimestampMicros.ofInt, TimestampNanos.ofInt, hn]
  · simp [TimestampMicros.ofInt, TimestampNanos.ofInt, not_lt.mpr hn]
  · have h2 : dt.epochMicros * 1000 < 0 :=
      mul_neg_of_neg_of_pos hdt (by norm_num)
    simp [TimestampMicros.from_datetime, TimestampNanos.from_datetime,
      TimestampMicros.ofInt, TimestampNanos.ofInt, hdt, h2]
  · exact ⟨rfl, rfl⟩

/-- Witness for C10 at the test's inputs: `-1` is rejected, `5` is
accepted verbatim, a pre-epoch datetime is rejected, and the epoch maps
to value 0. -/
theorem timestamp_validation_witness :
    TimestampMicros.ofInt (-1) = Except.error ValueErr.mustBePositive ∧
    TimestampNanos.ofInt 5 = Except.ok ⟨5⟩ ∧
    TimestampNanos.from_datetime ⟨-1⟩ =
      Except.error ValueErr.mustBePositive ∧
    TimestampMicros.from_datetime ⟨0⟩ = Except.ok ⟨0⟩ := by
  have h1 := (timestamp_validation (-1) ⟨-1⟩).1 (by decide)
  have h2 := (timestamp_validation 5 ⟨-1⟩).2.1 (by decide)
  have h3 := (timestamp_validation (-1) ⟨-1⟩).2.2.1 (by decide)
  have h4 := (timestamp_validation (-1) ⟨0⟩).2.2.2
  exact ⟨h1.1, h2.2, h3.2, h4.1⟩
